import Mathlib

/-!
Verification of the AgentFS core storage engine against its specification.

Strings manipulated by the TypeScript source are modelled as `List Char`
(one element per UTF-16 code unit; all characters relevant to the claims
are in the basic plane, where code units and characters coincide).
JSON values are modelled by the inductive type `Jv` below.
-/

namespace AgentFS

/-- Typed API error as thrown by the handlers: `statusCode`, optional `code`
(absent on plain `Error` objects, in which case the error handler of
`createApp` substitutes `INTERNAL`) and `message`. -/
structure ApiError where
  statusCode : Nat
  code : Option String
  message : String
deriving Repr, DecidableEq

/-- `pathError` from `packages/shared/src/path.ts`: a 400 INVALID_PATH error. -/
def pathError (message : String) : ApiError :=
  ⟨400, some "INVALID_PATH", message⟩

/-- One scan of the regex replace `input.replace(/\/+/g, "/")`: the flag
records whether the previous character was a slash, in which case further
slashes are dropped. -/
def collapseGo : Bool → List Char → List Char
  | _, [] => []
  | prevSlash, c :: rest =>
    if c = '/' then
      if prevSlash then collapseGo true rest else '/' :: collapseGo true rest
    else c :: collapseGo false rest

/-- The regex replace `input.replace(/\/+/g, "/")`: collapse each maximal
run of consecutive slashes to a single slash. -/
def collapseSlashes (l : List Char) : List Char :=
  collapseGo false l

/-- JavaScript `p.split("/")` for the single-character separator. -/
def splitSlash : List Char → List (List Char)
  | [] => [[]]
  | '/' :: rest => [] :: splitSlash rest
  | c :: rest =>
    match splitSlash rest with
    | [] => [[c]]
    | s :: ss => (c :: s) :: ss

/-- The per-segment loop of `normalizePath`: first offending segment wins,
exactly in source order (empty segment before dot segments). -/
def checkSegs : List (List Char) → Option ApiError
  | [] => none
  | s :: rest =>
    if s = [] then some (pathError "Empty path segment")
    else if s = ['.'] ∨ s = ['.', '.'] then some (pathError "Invalid path segment")
    else checkSegs rest

/-- `normalizePath` from `packages/shared/src/path.ts`, translated clause by
clause: falsy-input check, leading-slash check, 512-length cap on the raw
input, slash collapsing, trailing-slash strip (except a length-1 result),
64-segment cap, and the per-segment validity loop. -/
def normalizePath (input : List Char) : Except ApiError (List Char) :=
  if input = [] then .error (pathError "Invalid path")
  else if input.head? ≠ some '/' then .error (pathError "Path must start with slash")
  else if input.length > 512 then .error (pathError "Path too long")
  else
    let p0 := collapseSlashes input
    let p := if p0.length > 1 ∧ p0.getLast? = some '/' then p0.dropLast else p0
    let segs := (splitSlash p).drop 1
    if segs.length > 64 then .error (pathError "Too many path segments")
    else
      match checkSegs segs with
      | some e => .error e
      | none => .ok p

/-- `isReservedPath` from `packages/shared/src/path.ts`:
`path === "/sys" || path.startsWith("/sys/")`. -/
def isReservedPath (path : List Char) : Bool :=
  path = ['/', 's', 'y', 's'] ∨ List.isPrefixOf ['/', 's', 'y', 's', '/'] path

/-- `escapeSqlLikeLiteral` from the memory routes:
`input.replace(/[\\%_]/g, "\\$&")`. -/
def escapeSqlLikeLiteral : List Char → List Char
  | [] => []
  | c :: rest =>
    if c = '\\' ∨ c = '%' ∨ c = '_' then '\\' :: c :: escapeSqlLikeLiteral rest
    else c :: escapeSqlLikeLiteral rest

/-- SQL `LIKE` matching with escape character `\`
(the queries all use `... LIKE pattern ESCAPE '\'`): `%` matches any
sequence, `_` any single character, `\c` the literal character `c`, and the
whole string must be consumed.  A pattern ending in a bare `\` matches
nothing (Postgres rejects such patterns). -/
def likeMatch : List Char → List Char → Bool
  | [], [] => true
  | [], _ :: _ => false
  | '%' :: ps, [] => likeMatch ps []
  | '%' :: ps, x :: t => likeMatch ps (x :: t) || likeMatch ('%' :: ps) t
  | '\\' :: d :: ps, x :: s => decide (d = x) && likeMatch ps s
  | '\\' :: _ :: _, [] => false
  | ['\\'], _ => false
  | '_' :: ps, _ :: s => likeMatch ps s
  | '_' :: _, [] => false
  | c :: ps, x :: s => decide (c = x) && likeMatch ps s
  | _ :: _, [] => false
termination_by ps s => (s.length, ps.length)
decreasing_by all_goals first
  | exact Prod.Lex.right _ (Nat.lt_succ_self _)
  | exact Prod.Lex.left _ _ (Nat.lt_succ_self _)

/-- The `/v1/list` handler: `prefixWithSlash = prefix === "/" ? "/" : prefix + "/"`. -/
def prefixWithSlash (pfx : List Char) : List Char :=
  if pfx = ['/'] then ['/'] else pfx ++ ['/']

/-- The `/v1/list` handler: `like = escapeSqlLikeLiteral(prefixWithSlash) + "%"`. -/
def listLikePattern (pfx : List Char) : List Char :=
  escapeSqlLikeLiteral (prefixWithSlash pfx) ++ ['%']

/-- The index loop of `globToSqlLike` (`packages/shared/src/glob.ts`) with its
`out` accumulator: `**` and `*` emit `%` (the former consumes the lookahead
character), `?` emits `_`, each of `%` `_` `\` is emitted escaped, and every
other character is copied. -/
def globToSqlLikeGo (acc : List Char) : List Char → List Char
  | [] => acc
  | '*' :: '*' :: rest => globToSqlLikeGo (acc ++ ['%']) rest
  | '*' :: rest => globToSqlLikeGo (acc ++ ['%']) rest
  | '?' :: rest => globToSqlLikeGo (acc ++ ['_']) rest
  | ch :: rest =>
    if ch = '%' ∨ ch = '_' ∨ ch = '\\' then
      globToSqlLikeGo (acc ++ ['\\', ch]) rest
    else globToSqlLikeGo (acc ++ [ch]) rest

/-- `globToSqlLike` from `packages/shared/src/glob.ts` (the `like` field of
its result; the escape character is the constant `\`). -/
def globToSqlLike (glob : List Char) : List Char :=
  globToSqlLikeGo [] glob

/-- The translation exactly as the specification words it: a single
left-to-right pass mapping `**` to `%`, a lone `*` to `%`, `?` to `_`,
escaping each literal `%` `_` `\`, and copying all other characters. -/
def globSpecPass : List Char → List Char
  | [] => []
  | '*' :: '*' :: rest => '%' :: globSpecPass rest
  | '*' :: rest => '%' :: globSpecPass rest
  | '?' :: rest => '_' :: globSpecPass rest
  | c :: rest =>
    if c = '%' ∨ c = '_' ∨ c = '\\' then '\\' :: c :: globSpecPass rest
    else c :: globSpecPass rest

/-! ## JSON values and canonical serialization (`canonical-json.ts`) -/

/-- A JavaScript value as seen by `canonicalize`: JSON scalars, arrays and
objects (an object is its ordered key/value entry list; JavaScript objects
never repeat a key), plus the three non-JSON cases the source singles out.
Numbers are modelled as integers (the claims do not involve non-integer
numerics). -/
inductive Jv where
  | null : Jv
  | bool (b : Bool) : Jv
  | num (n : Int) : Jv
  | str (s : String) : Jv
  | arr (elems : List Jv) : Jv
  | obj (entries : List (String × Jv)) : Jv
  | undef : Jv
  | func : Jv
  | symbol : Jv
deriving Inhabited

/-- Key comparison used to sort object entries; `Object.keys(value).sort()`
sorts keys lexicographically. -/
def keyLe (a b : String × Jv) : Prop := a.1 ≤ b.1

instance : DecidableRel keyLe := fun a b => inferInstanceAs (Decidable (a.1 ≤ b.1))

instance : IsTotal (String × Jv) keyLe := ⟨fun a b => le_total a.1 b.1⟩

instance : IsTrans (String × Jv) keyLe := ⟨fun _ _ _ h₁ h₂ => le_trans h₁ h₂⟩

/-- Strict key order; two entries of a duplicate-free-keyed object list are
always strictly ordered once sorted. -/
def keyLt (a b : String × Jv) : Prop := a.1 < b.1

instance : IsAntisymm (String × Jv) keyLt :=
  ⟨fun _ _ h₁ h₂ => absurd h₁ (lt_asymm h₂)⟩

/-- Sorting the entry list of an object by key.  The source sorts the key
array and then reads the values back; for the duplicate-free key lists of
JavaScript objects this equals sorting the entry list by key. -/
def sortPairs (l : List (String × Jv)) : List (String × Jv) :=
  l.insertionSort keyLe

mutual

/-- `canonicalize` from `canonical-json.ts`: scalars unchanged, arrays mapped
recursively, objects rebuilt with keys sorted lexicographically and values
canonicalized, and functions/undefined/symbols replaced by `null`. -/
def canonicalize : Jv → Jv
  | .null => .null
  | .bool b => .bool b
  | .num n => .num n
  | .str s => .str s
  | .arr l => .arr (canonList l)
  | .obj l => .obj (sortPairs (canonPairs l))
  | .undef => .null
  | .func => .null
  | .symbol => .null

/-- `value.map(canonicalize)` for arrays. -/
def canonList : List Jv → List Jv
  | [] => []
  | v :: rest => canonicalize v :: canonList rest

/-- `out[k] = canonicalize(value[k])` for object entries. -/
def canonPairs : List (String × Jv) → List (String × Jv)
  | [] => []
  | (k, v) :: rest => (k, canonicalize v) :: canonPairs rest

end

/-- One escaped character of a JSON string, as `JSON.stringify` renders it. -/
def escapeJsonChar (c : Char) : String :=
  if c = '"' then "\\\""
  else if c = '\\' then "\\\\"
  else if c = '\n' then "\\n"
  else if c = '\r' then "\\r"
  else if c = '\t' then "\\t"
  else if c = (Char.ofNat 8) then "\\b"
  else if c = (Char.ofNat 12) then "\\f"
  else if c.toNat < 32 then
    "\\u00" ++ String.mk [(Nat.digitChar (c.toNat / 16)), (Nat.digitChar (c.toNat % 16))]
  else String.mk [c]

/-- A JSON string literal with its surrounding quotes. -/
def quoteJsonString (s : String) : String :=
  "\"" ++ String.join (s.toList.map escapeJsonChar) ++ "\""

mutual

/-- `JSON.stringify` on canonicalized values (no `undefined`/function/symbol
can remain after `canonicalize`; for totality those cases render as `null`,
which is what `JSON.stringify` produces for them inside an array). -/
def jsonStringify : Jv → String
  | .null => "null"
  | .bool true => "true"
  | .bool false => "false"
  | .num n => toString n
  | .str s => quoteJsonString s
  | .arr l => "[" ++ stringifyList l ++ "]"
  | .obj l => "\x7b" ++ stringifyPairs l ++ "\x7d"
  | .undef => "null"
  | .func => "null"
  | .symbol => "null"

/-- Comma-joined array elements. -/
def stringifyList : List Jv → String
  | [] => ""
  | [v] => jsonStringify v
  | v :: rest => jsonStringify v ++ "," ++ stringifyList rest

/-- Comma-joined `"key":value` members. -/
def stringifyPairs : List (String × Jv) → String
  | [] => ""
  | [(k, v)] => quoteJsonString k ++ ":" ++ jsonStringify v
  | (k, v) :: rest => quoteJsonString k ++ ":" ++ jsonStringify v ++ "," ++ stringifyPairs rest

end

/-- `canonicalJsonStringify` from `canonical-json.ts`:
`JSON.stringify(canonicalize(value))`. -/
def canonicalJsonStringify (v : Jv) : String :=
  jsonStringify (canonicalize v)

mutual

/-- Equality of JavaScript values up to permutation of object keys at every
nesting depth: scalars must be equal, arrays are compared pointwise in
order, and two objects are equivalent when (their key lists being
duplicate-free, as JavaScript guarantees) some permutation of the one
matches the other entry by entry with equal keys and equivalent values. -/
inductive PermEquiv : Jv → Jv → Prop where
  | null : PermEquiv .null .null
  | bool (b : Bool) : PermEquiv (.bool b) (.bool b)
  | num (n : Int) : PermEquiv (.num n) (.num n)
  | str (s : String) : PermEquiv (.str s) (.str s)
  | undef : PermEquiv .undef .undef
  | func : PermEquiv .func .func
  | symbol : PermEquiv .symbol .symbol
  | arr {l₁ l₂ : List Jv} : PermEquivList l₁ l₂ → PermEquiv (.arr l₁) (.arr l₂)
  | obj {l₁ lmid l₂ : List (String × Jv)} :
      (l₁.map Prod.fst).Nodup →
      PermEquivPairs l₁ lmid →
      lmid.Perm l₂ →
      PermEquiv (.obj l₁) (.obj l₂)

/-- Pointwise `PermEquiv` on lists. -/
inductive PermEquivList : List Jv → List Jv → Prop where
  | nil : PermEquivList [] []
  | cons {a b : Jv} {l₁ l₂ : List Jv} :
      PermEquiv a b → PermEquivList l₁ l₂ → PermEquivList (a :: l₁) (b :: l₂)

/-- Entrywise equal keys and `PermEquiv` values on entry lists. -/
inductive PermEquivPairs : List (String × Jv) → List (String × Jv) → Prop where
  | nil : PermEquivPairs [] []
  | cons {k : String} {v₁ v₂ : Jv} {l₁ l₂ : List (String × Jv)} :
      PermEquiv v₁ v₂ → PermEquivPairs l₁ l₂ →
      PermEquivPairs ((k, v₁) :: l₁) ((k, v₂) :: l₂)

end

/-! ## Idempotency (`packages/api/src/idempotency.ts`)

The SHA-256 digest comes from `node:crypto` and is kept abstract: every
theorem quantifies over the digest function `hashFn`. -/

/-- A row of `idempotency_keys`: stored request hash, cached response and
expiry timestamp. -/
structure IdemRecord where
  requestHash : String
  response : Jv
  expiresAt : Option Nat

/-- `hashRequestCanonical`: digest of the canonical JSON serialization. -/
def hashRequestCanonical (hashFn : String → String) (body : Jv) : String :=
  hashFn (canonicalJsonStringify body)

/-- `hashRequestLegacy`: digest of the plain `JSON.stringify` serialization. -/
def hashRequestLegacy (hashFn : String → String) (body : Jv) : String :=
  hashFn (jsonStringify body)

/-- Error thrown on an idempotency-key reuse with a different body. -/
def idempotencyMismatchError : ApiError :=
  ⟨422, some "IDEMPOTENCY_KEY_MISMATCH", "Idempotency key reused with different request body"⟩

/-- Outcome of `checkIdempotency`: proceed as a fresh write (recording
whether an expired row was deleted on encounter), return the cached
response, or fail with the 422 mismatch error. -/
inductive IdemOutcome where
  | fresh (deletedExpired : Bool)
  | cached (response : Jv)
  | mismatch

/-- `row.expires_at && new Date(row.expires_at).getTime() <= Date.now()`. -/
def idemExpired (row : IdemRecord) (now : Nat) : Bool :=
  match row.expiresAt with
  | some e => e ≤ now
  | none => false

/-- The branch structure of `checkIdempotency`, applied to the selected row
(if any) and the two digests of the request body: no row → fresh; expired
row → delete it and proceed fresh; stored hash differing from both digests
→ mismatch; otherwise → cached response as stored. -/
def checkIdempotency (row? : Option IdemRecord) (requestHash legacyHash : String)
    (now : Nat) : IdemOutcome :=
  match row? with
  | none => .fresh false
  | some row =>
    if idemExpired row now then .fresh true
    else if row.requestHash ≠ requestHash ∧ row.requestHash ≠ legacyHash then .mismatch
    else .cached row.response

/-- Association-list lookup (the `SELECT ... WHERE tenant_id = _ AND key = _`). -/
def lookupAssoc {α β : Type} [BEq α] (k : α) : List (α × β) → Option β
  | [] => none
  | (k0, v) :: rest => if k0 == k then some v else lookupAssoc k rest

/-- Association-list removal (the `DELETE ... WHERE tenant_id = _ AND key = _`). -/
def removeAssoc {α β : Type} [BEq α] (k : α) : List (α × β) → List (α × β)
  | [] => []
  | (k0, v) :: rest => if k0 == k then removeAssoc k rest else (k0, v) :: removeAssoc k rest

/-- Association-list upsert (`ON CONFLICT ... DO UPDATE`). -/
def setAssoc {α β : Type} [BEq α] (k : α) (v : β) : List (α × β) → List (α × β)
  | [] => [(k, v)]
  | (k0, v0) :: rest => if k0 == k then (k, v) :: rest else (k0, v0) :: setAssoc k v rest

/-- Association-list insert keeping an existing row (`ON CONFLICT DO NOTHING`),
as `storeIdempotency` does. -/
def insertIfAbsent {α β : Type} [BEq α] (k : α) (v : β) (l : List (α × β)) : List (α × β) :=
  match lookupAssoc k l with
  | some _ => l
  | none => l ++ [(k, v)]

/-- `IDEMPOTENCY_TTL_HOURS = 24`, in milliseconds as `Date` arithmetic uses. -/
def idempotencyTtlMs : Nat := 24 * 60 * 60 * 1000

/-! ## Memory engine state (`entry_versions` and the latest pointer) -/

/-- An `entry_versions` row for one `(tenant, agent, path)` triple.  The
`importance` float is not modelled (no claim concerns it); `id` is the
position of the row in the append-only list. -/
structure VersionRec where
  value : Jv
  tags : List String
  searchable : Bool
  contentHash : String
  createdAt : Nat
  expiresAt : Option Nat
  deletedAt : Option Nat

/-- The versions of one triple together with its `entries` latest pointer. -/
structure TripleState where
  versions : List VersionRec
  latest : Option Nat

/-- No row yet for the triple: no versions, no latest pointer. -/
def emptyTriple : TripleState := ⟨[], none⟩

/-- The PUT transaction on one triple: insert a version row (with
`expires_at = now + ttl_seconds * 1000` when a TTL is supplied) and upsert
the latest pointer to it; returns the new state and the new version id. -/
def putVersion (st : TripleState) (value : Jv) (tags : List String) (searchable : Bool)
    (contentHash : String) (ttlSeconds : Option Nat) (now : Nat) : TripleState × Nat :=
  let ver : VersionRec :=
    ⟨value, tags, searchable, contentHash, now, ttlSeconds.map (fun t => now + t * 1000), none⟩
  (⟨st.versions ++ [ver], some st.versions.length⟩, st.versions.length)

/-- The DELETE transaction on one triple: insert a tombstone version
(empty value, empty tags, sentinel content hash, `deleted_at = now()`) and
upsert the latest pointer to it. -/
def deleteVersion (st : TripleState) (now : Nat) : TripleState × Nat :=
  let ver : VersionRec := ⟨Jv.obj [], [], false, "tombstone", now, none, some now⟩
  (⟨st.versions ++ [ver], some st.versions.length⟩, st.versions.length)

/-- `expires_at` check used by GET: `new Date(expires_at).getTime() <= Date.now()`. -/
def isExpiredAt (expiresAt : Option Nat) (now : Nat) : Bool :=
  match expiresAt with
  | some e => e ≤ now
  | none => false

/-- The fields of a GET hit:
`{found, path, value, version_id, created_at, expires_at, tags}`. -/
structure GetHit where
  path : List Char
  value : Jv
  versionId : Nat
  createdAt : Nat
  expiresAt : Option Nat
  tags : List String

/-- The `/v1/get` core: join the latest pointer to its version and apply the
visibility filter; `none` models `{found:false}`. -/
def getEntry (st : TripleState) (path : List Char) (now : Nat) : Option GetHit :=
  match st.latest with
  | none => none
  | some id =>
    match st.versions[id]? with
    | none => none
    | some r =>
      if r.deletedAt.isSome || isExpiredAt r.expiresAt now then none
      else some ⟨path, r.value, id, r.createdAt, r.expiresAt, r.tags⟩

/-- One client write on a triple, for the latest-pointer invariance claim. -/
inductive MemOp where
  | put (value : Jv) (tags : List String) (searchable : Bool) (contentHash : String)
      (ttlSeconds : Option Nat)
  | del

/-- Apply one timestamped write. -/
def applyOp (st : TripleState) : MemOp × Nat → TripleState
  | (.put v tags s h ttl, now) => (putVersion st v tags s h ttl now).1
  | (.del, now) => (deleteVersion st now).1

/-- Apply a finite sequence of timestamped writes to the empty triple. -/
def applyOps (ops : List (MemOp × Nat)) : TripleState :=
  ops.foldl applyOp emptyTriple

/-! ## The PUT and DELETE routes (`/v1/put`, `/v1/delete` in the memory routes) -/

/-- Per-tenant `quota_usage` counters for a fixed UTC day (the two the write
path touches). -/
structure QuotaRow where
  writes : Nat
  bytes : Nat

/-- The mutable state the write routes touch: idempotency rows keyed by
`(tenant, key)`, quota rows keyed by tenant, and the per-triple store keyed
by `(tenant, agent, path)`.  (The embedding queue and the dump cache are
outside the claims about these routes.) -/
structure SysState where
  idem : List ((String × String) × IdemRecord)
  quota : List (String × QuotaRow)
  store : List ((String × String × List Char) × TripleState)

/-- `incWriteQuota`: upsert `writes + 1, bytes + n` and fail with
`QUOTA_WRITES_PER_DAY` (429) when the incremented counter exceeds the
limit.  The counter increment persists even when the error is thrown (the
SQL upsert has already run). -/
def incWriteQuota (limit : Nat) (st : SysState) (tenant : String) (bytes : Nat) :
    Option ApiError × SysState :=
  let q := (lookupAssoc tenant st.quota).getD ⟨0, 0⟩
  let q1 : QuotaRow := ⟨q.writes + 1, q.bytes + bytes⟩
  let st1 := { st with quota := setAssoc tenant q1 st.quota }
  (if q1.writes > limit then some ⟨429, some "QUOTA_WRITES_PER_DAY", "Quota exceeded"⟩
   else none, st1)

/-- The parsed `/v1/put` body together with the raw body value used for
idempotency hashing (`body` is the JSON object the client sent, of which
the other fields are the parsed projections). -/
structure PutReq where
  agentId : String
  path : List Char
  value : Jv
  ttlSeconds : Option Nat
  tags : List String
  searchable : Bool
  body : Jv

/-- The parsed `/v1/delete` body, with the raw body for hashing. -/
structure DelReq where
  agentId : String
  path : List Char
  body : Jv

/-- The `/v1/put` handler after the idempotency gate, in source order:
normalize the path, reject reserved paths (403, no error code attached),
hash the content, increment the write quota, insert the version and upsert
the latest pointer, then store the idempotency record (insert-if-absent).
Inline embedding and the dump-cache invalidation touch no state modelled
here. -/
def putCore (hashFn : String → String) (writeLimit : Nat) (st : SysState)
    (tenant : String) (req : PutReq) (idemKey : Option String) (now : Nat) :
    Except ApiError Jv × SysState :=
  match normalizePath req.path with
  | .error e => (.error e, st)
  | .ok path =>
    if isReservedPath path then (.error ⟨403, none, "Reserved path"⟩, st)
    else
      let valueText := jsonStringify req.value
      let contentHash := hashFn (String.mk path ++ ":" ++ valueText)
      let bytes := valueText.utf8ByteSize
      match incWriteQuota writeLimit st tenant bytes with
      | (some e, st1) => (.error e, st1)
      | (none, st1) =>
        let triple := (lookupAssoc (tenant, req.agentId, path) st1.store).getD emptyTriple
        let verPair := putVersion triple req.value req.tags req.searchable contentHash
          req.ttlSeconds now
        let st2 := { st1 with
          store := setAssoc (tenant, req.agentId, path) verPair.1 st1.store }
        let response := Jv.obj
          [("ok", .bool true), ("version_id", .num verPair.2), ("created_at", .num now)]
        let st3 :=
          match idemKey with
          | some key =>
            let rcd : IdemRecord :=
              ⟨hashRequestCanonical hashFn req.body, response, some (now + idempotencyTtlMs)⟩
            { st2 with idem := insertIfAbsent (tenant, key) rcd st2.idem }
          | none => st2
        (.ok response, st3)

/-- The `/v1/put` route (authentication, scope, rate limiting and body
parsing precede this and are outside the claims): the idempotency gate runs
first when a key is supplied, short-circuiting to the cached response,
failing on a hash mismatch, or deleting an expired row before the fresh
write proceeds. -/
def putRoute (hashFn : String → String) (writeLimit : Nat) (st : SysState)
    (tenant : String) (req : PutReq) (idemKey : Option String) (now : Nat) :
    Except ApiError Jv × SysState :=
  match idemKey with
  | some key =>
    match checkIdempotency (lookupAssoc (tenant, key) st.idem)
        (hashRequestCanonical hashFn req.body) (hashRequestLegacy hashFn req.body) now with
    | .cached resp => (.ok resp, st)
    | .mismatch => (.error idempotencyMismatchError, st)
    | .fresh deleted =>
      let st1 := if deleted then { st with idem := removeAssoc (tenant, key) st.idem } else st
      putCore hashFn writeLimit st1 tenant req idemKey now
  | none => putCore hashFn writeLimit st tenant req idemKey now

/-- The `/v1/delete` handler after the idempotency gate, in source order:
normalize the path, then insert a tombstone version and upsert the latest
pointer.  The source performs no reserved-path check and no write-quota
increment on this route. -/
def deleteCore (hashFn : String → String) (st : SysState) (tenant : String)
    (req : DelReq) (idemKey : Option String) (now : Nat) :
    Except ApiError Jv × SysState :=
  match normalizePath req.path with
  | .error e => (.error e, st)
  | .ok path =>
    let triple := (lookupAssoc (tenant, req.agentId, path) st.store).getD emptyTriple
    let verPair := deleteVersion triple now
    let st1 := { st with store := setAssoc (tenant, req.agentId, path) verPair.1 st.store }
    let response := Jv.obj
      [("ok", .bool true), ("deleted", .bool true), ("version_id", .num verPair.2),
       ("created_at", .num now)]
    let st2 :=
      match idemKey with
      | some key =>
        let rcd : IdemRecord :=
          ⟨hashRequestCanonical hashFn req.body, response, some (now + idempotencyTtlMs)⟩
        { st1 with idem := insertIfAbsent (tenant, key) rcd st1.idem }
      | none => st1
    (.ok response, st2)

/-- The `/v1/delete` route, with the same idempotency gate placement as PUT. -/
def deleteRoute (hashFn : String → String) (st : SysState) (tenant : String)
    (req : DelReq) (idemKey : Option String) (now : Nat) :
    Except ApiError Jv × SysState :=
  match idemKey with
  | some key =>
    match checkIdempotency (lookupAssoc (tenant, key) st.idem)
        (hashRequestCanonical hashFn req.body) (hashRequestLegacy hashFn req.body) now with
    | .cached resp => (.ok resp, st)
    | .mismatch => (.error idempotencyMismatchError, st)
    | .fresh deleted =>
      let st1 := if deleted then { st with idem := removeAssoc (tenant, key) st.idem } else st
      deleteCore hashFn st1 tenant req idemKey now
  | none => deleteCore hashFn st tenant req idemKey now

/-- The outer error handler of `createApp`: status from the error (500 when
absent — `ApiError` always carries one here), code defaulting to
`INTERNAL`, and full masking of 5xx detail in production. -/
def errorEnvelope (e : ApiError) (isProdEnv : Bool) : Nat × String × String :=
  let code := e.code.getD "INTERNAL"
  if e.statusCode ≥ 500 ∧ isProdEnv then (e.statusCode, "INTERNAL", "Internal error")
  else (e.statusCode, code, e.message)

/-! ## Embedding worker (`runLoop`) -/

/-- `embedding_jobs.status` values the worker loop reads and writes. -/
inductive JobStatus where
  | queued
  | running
  | done
  | failed
deriving DecidableEq, Repr

/-- One `embedding_jobs` row, restricted to the columns the state machine
touches. -/
structure EmbJob where
  status : JobStatus
  attempts : Nat
  lastError : Option String
deriving DecidableEq, Repr

/-- `MAX_ATTEMPTS = 5`. -/
def maxAttempts : Nat := 5

/-- The single-statement claim query: a row is claimable when
`status='queued' AND attempts < MAX_ATTEMPTS`; claiming flips it to
`running` and increments `attempts` atomically (SKIP LOCKED serializes
concurrent claimers). -/
def claimJob (j : EmbJob) : Option EmbJob :=
  if j.status = .queued ∧ j.attempts < maxAttempts then
    some { j with status := .running, attempts := j.attempts + 1 }
  else none

/-- Outcome of processing one claimed job. -/
inductive ProcessResult where
  | success
  | failure (msg : String)

/-- `Math.min(1000 * Math.pow(2, attempts), 32_000)` in milliseconds. -/
def backoffMs (attempts : Nat) : Nat := min (1000 * 2 ^ attempts) 32000

/-- The success/failure transitions of one worker iteration on the claimed
job (whose `attempts` was already incremented by the claim): success sets
`done` and clears `last_error`; failure records the error and returns the
job to `queued` — sleeping `backoffMs` — unless `attempts ≥ MAX_ATTEMPTS`,
which is terminal `failed` (no sleep).  The result pairs the updated row
with the backoff sleep, if any (`once` mode also skips the sleep). -/
def finishJob (j : EmbJob) (r : ProcessResult) : EmbJob × Option Nat :=
  match r with
  | .success => ({ j with status := .done, lastError := none }, none)
  | .failure msg =>
    if j.attempts ≥ maxAttempts then
      ({ j with status := .failed, lastError := some msg }, none)
    else
      ({ j with status := .queued, lastError := some msg }, some (backoffMs j.attempts))

/-! ## Embedder calls (`embeddings.ts` and `worker/src/openai.ts`) -/

/-- An upstream embedding-provider response: HTTP `ok` flag and status, the
raw body text, and the parsed `data[0].embedding` vector when present
(vector entries modelled as integers; their values are immaterial here). -/
structure UpstreamResponse where
  ok : Bool
  status : Nat
  bodyText : String
  dataEmbedding : Option (List Int)

/-- Result of the `fetch` call: a response, or a network/timeout error. -/
inductive FetchOutcome where
  | response (r : UpstreamResponse)
  | networkError (msg : String)

/-- Replace the upstream body text, leaving everything else unchanged. -/
def setBody : FetchOutcome → String → FetchOutcome
  | .response r, b => .response { r with bodyText := b }
  | .networkError m, _ => .networkError m

/-- `embedQuery` from `packages/api/src/embeddings.ts` as a function of the
fetch outcome: unconfigured key → 503; network error → generic 502
`EMBEDDINGS_API_ERROR`; non-OK response → the body is read and logged but
the thrown error is the same generic 502; missing vector → 502
`EMBEDDINGS_INVALID_RESPONSE`; otherwise the vector. -/
def embedQuery (apiKeyConfigured : Bool) (f : FetchOutcome) : Except ApiError (List Int) :=
  if ¬apiKeyConfigured then
    .error ⟨503, some "EMBEDDINGS_NOT_CONFIGURED", "Search requires OPENAI_API_KEY"⟩
  else
    match f with
    | .networkError _ =>
      .error ⟨502, some "EMBEDDINGS_API_ERROR", "Embeddings service temporarily unavailable"⟩
    | .response r =>
      if ¬r.ok then
        .error ⟨502, some "EMBEDDINGS_API_ERROR", "Embeddings service temporarily unavailable"⟩
      else
        match r.dataEmbedding with
        | none => .error ⟨502, some "EMBEDDINGS_INVALID_RESPONSE", "Invalid embeddings response"⟩
        | some v => .ok v

/-- `embedText` from `packages/worker/src/openai.ts` as a function of the
fetch outcome; it throws plain errors whose message on a non-OK response is
`Embeddings API error: <status>` — the status only, never the body. -/
def embedText (apiKeyConfigured : Bool) (f : FetchOutcome) : Except String (List Int) :=
  if ¬apiKeyConfigured then .error "OPENAI_API_KEY not set"
  else
    match f with
    | .networkError _ => .error "Embeddings service temporarily unavailable"
    | .response r =>
      if ¬r.ok then .error ("Embeddings API error: " ++ toString r.status)
      else
        match r.dataEmbedding with
        | none => .error "Invalid embeddings response"
        | some v => .ok v

/-- What `runLoop` writes to `embedding_jobs.last_error` when the embed call
fails: `String(err?.message || err)`, i.e. the thrown message itself. -/
def workerLastErrorOnEmbedFailure (apiKeyConfigured : Bool) (f : FetchOutcome) : Option String :=
  match embedText apiKeyConfigured f with
  | .error m => some m
  | .ok _ => none

/-! # Theorems -/

/-- The accumulator loop of `globToSqlLike` prepends its accumulator to the
direct left-to-right translation. -/
theorem globToSqlLikeGo_append (g : List Char) : ∀ acc : List Char,
    globToSqlLikeGo acc g = acc ++ globSpecPass g := by
  induction g using globSpecPass.induct <;> intro acc <;>
    simp [globToSqlLikeGo, globSpecPass, *]

/-- C6: `globToSqlLike` produces exactly the LIKE pattern given by a single
left-to-right pass in which `**` maps to `%`, a lone `*` maps to `%`, `?`
maps to `_`, each literal `%`, `_` or `\` is emitted as `\` followed by
itself, and every other character is copied unchanged. -/
theorem globToSqlLike_matches_spec_translation (g : List Char) :
    globToSqlLike g = globSpecPass g := by
  simpa using globToSqlLikeGo_append g []

/-- C4: code bug — `normalizePath` rejects the root path `/` with
`INVALID_PATH` ("Empty path segment", because `"/".split("/")` yields two
empty strings and the first non-dropped segment is empty), although the
claim — and the `/v1/list` and `/v1/search` handlers, which special-case a
returned `/` — expect the root to be accepted and normalize to `/`. -/
theorem normalizePath_rejects_root :
    normalizePath ['/'] = .error (pathError "Empty path segment") ∧
    (pathError "Empty path segment").statusCode = 400 ∧
    (pathError "Empty path segment").code = some "INVALID_PATH" :=
  ⟨rfl, rfl, rfl⟩

/-- C7: the embedding-job state machine of `runLoop`: exactly the rows with
status `queued` and fewer than `MAX_ATTEMPTS = 5` attempts are claimable; a
claim sets status `running` and increments `attempts`; success yields
`done` with `last_error` cleared; an exception returns the job to `queued`
with a backoff sleep of `min(2^attempts seconds, 32 s)` while
`attempts < 5`, and sets the terminal `failed` state once `attempts ≥ 5`. -/
theorem embedding_job_state_machine :
    (∀ j : EmbJob, (claimJob j).isSome ↔ (j.status = .queued ∧ j.attempts < maxAttempts)) ∧
    (∀ j j2 : EmbJob, claimJob j = some j2 →
      j2.status = .running ∧ j2.attempts = j.attempts + 1 ∧ j2.lastError = j.lastError) ∧
    (∀ j : EmbJob, finishJob j .success = ({ j with status := .done, lastError := none }, none)) ∧
    (∀ (j : EmbJob) (msg : String), j.attempts < maxAttempts →
      finishJob j (.failure msg) =
        ({ j with status := .queued, lastError := some msg },
          some (min (1000 * 2 ^ j.attempts) 32000))) ∧
    (∀ (j : EmbJob) (msg : String), maxAttempts ≤ j.attempts →
      finishJob j (.failure msg) = ({ j with status := .failed, lastError := some msg }, none)) := by
  refine ⟨fun j => ?_, fun j j2 h => ?_, fun j => rfl, fun j msg h => ?_, fun j msg h => ?_⟩
  · simp only [claimJob]
    split <;> simp_all
  · simp only [claimJob] at h
    split at h
    · cases h; exact ⟨rfl, rfl, rfl⟩
    · cases h
  · simp only [finishJob, backoffMs]
    rw [if_neg (by omega)]
  · simp only [finishJob]
    rw [if_pos (by omega)]

/-- Witness for C7: a queued job claimed at one prior attempt fails and
returns to `queued` with a 2-second backoff. -/
theorem embedding_job_state_machine_witness :
    finishJob ⟨.running, 1, some "old"⟩ (.failure "boom") =
      (⟨.queued, 1, some "boom"⟩, some 2000) := by
  have h := embedding_job_state_machine.2.2.2.1 ⟨.running, 1, some "old"⟩ "boom" (by decide)
  simpa using h

/-- C9: embedder error opacity — the errors produced by `embedQuery` (the
search path) and `embedText` (the worker), and hence the message `runLoop`
stores into `embedding_jobs.last_error`, are unchanged under any
replacement of the upstream response body; a non-OK upstream response
surfaces to search clients as the generic 502 `EMBEDDINGS_API_ERROR`
message, and to the worker as a message built from the status alone. -/
theorem embedder_error_opacity :
    (∀ (k : Bool) (f : FetchOutcome) (b : String), embedQuery k (setBody f b) = embedQuery k f) ∧
    (∀ (k : Bool) (f : FetchOutcome) (b : String), embedText k (setBody f b) = embedText k f) ∧
    (∀ (k : Bool) (f : FetchOutcome) (b : String),
      workerLastErrorOnEmbedFailure k (setBody f b) = workerLastErrorOnEmbedFailure k f) ∧
    (∀ (st : Nat) (b : String) (vec : Option (List Int)),
      embedQuery true (.response ⟨false, st, b, vec⟩) =
        .error ⟨502, some "EMBEDDINGS_API_ERROR", "Embeddings service temporarily unavailable"⟩) ∧
    (∀ (st : Nat) (b : String) (vec : Option (List Int)),
      embedText true (.response ⟨false, st, b, vec⟩) =
        .error ("Embeddings API error: " ++ toString st)) := by
  refine ⟨fun k f b => ?_, fun k f b => ?_, fun k f b => ?_, fun st b vec => rfl,
    fun st b vec => rfl⟩ <;>
    cases f <;> simp [embedQuery, embedText, workerLastErrorOnEmbedFailure, setBody]

/-- C3: the `checkIdempotency` protocol on an existing `(tenant, key)` row:
an unexpired row whose stored hash equals the canonical digest or the
legacy digest of the body yields the cached response as stored; an
unexpired row matching neither digest yields the 422
`IDEMPOTENCY_KEY_MISMATCH` outcome; an expired row is deleted on encounter
and the request proceeds fresh; and an absent row proceeds fresh. -/
theorem checkIdempotency_protocol (row : IdemRecord) (canonH legacyH : String) (now : Nat) :
    (idemExpired row now = false → (row.requestHash = canonH ∨ row.requestHash = legacyH) →
      checkIdempotency (some row) canonH legacyH now = .cached row.response) ∧
    (idemExpired row now = false → row.requestHash ≠ canonH → row.requestHash ≠ legacyH →
      checkIdempotency (some row) canonH legacyH now = .mismatch) ∧
    (idemExpired row now = true →
      checkIdempotency (some row) canonH legacyH now = .fresh true) ∧
    (checkIdempotency none canonH legacyH now = .fresh false) ∧
    idempotencyMismatchError.statusCode = 422 ∧
    idempotencyMismatchError.code = some "IDEMPOTENCY_KEY_MISMATCH" := by
  refine ⟨fun he hm => ?_, fun he h₁ h₂ => ?_, fun he => ?_, rfl, rfl, rfl⟩ <;>
    simp [checkIdempotency, he]
  · rcases hm with hm | hm <;> simp [hm]
  · simp [h₁, h₂]

/-- Witness for C3: an unexpired row with a matching canonical digest
returns its cached response. -/
theorem checkIdempotency_protocol_witness :
    checkIdempotency (some ⟨"h1", .null, some 100⟩) "h1" "h2" 50 = .cached .null :=
  (checkIdempotency_protocol ⟨"h1", .null, some 100⟩ "h1" "h2" 50).1 (by decide) (Or.inl rfl)

/-- A bare `%` pattern matches every string. -/
theorem likeMatch_percent (s : List Char) : likeMatch ['%'] s = true := by
  induction s with
  | nil => simp [likeMatch]
  | cons x t ih => simp [likeMatch, ih]

/-- An escaped literal followed by `%` matches exactly the strings that
literally begin with that literal. -/
theorem likeMatch_escape_percent (p : List Char) : ∀ s : List Char,
    likeMatch (escapeSqlLikeLiteral p ++ ['%']) s = true ↔ ∃ t, s = p ++ t := by
  induction p with
  | nil =>
    intro s
    simp [escapeSqlLikeLiteral, likeMatch_percent]
  | cons c p ih =>
    intro s
    by_cases hc : c = '\\' ∨ c = '%' ∨ c = '_'
    · cases s with
      | nil => simp [escapeSqlLikeLiteral, hc, likeMatch]
      | cons x s1 =>
        simp only [escapeSqlLikeLiteral, if_pos hc, List.cons_append, likeMatch]
        simp [ih s1, List.cons_eq_cons, eq_comm (a := c) (b := x), and_assoc]
    · have hcp : ¬ c = '%' := fun h => hc (Or.inr (Or.inl h))
      have hcb : ¬ c = '\\' := fun h => hc (Or.inl h)
      have hcu : ¬ c = '_' := fun h => hc (Or.inr (Or.inr h))
      cases s with
      | nil => simp [escapeSqlLikeLiteral, hc, likeMatch, hcp, hcb, hcu]
      | cons x s1 =>
        simp only [escapeSqlLikeLiteral, if_neg hc, List.cons_append]
        simp [likeMatch, hcp, hcb, hcu, ih s1, List.cons_eq_cons,
          eq_comm (a := c) (b := x), and_assoc]

/-- C5: prefix safety of LIST — the LIKE pattern the `/v1/list` handler
builds (every `%`, `_` and `\` of the normalized prefix escaped with a
backslash, then `%` appended) matches a path exactly when the path
literally begins with `prefix + "/"`; concretely, the pattern for prefix
`/weird%prefix` matches `/weird%prefix/a` and does not match
`/weirdXprefix/a`, where `%` would have acted as a wildcard. -/
theorem list_prefix_like_safety :
    (∀ pfx path : List Char,
      likeMatch (listLikePattern pfx) path = true ↔ ∃ t, path = prefixWithSlash pfx ++ t) ∧
    likeMatch (listLikePattern ['/', 'w', 'e', 'i', 'r', 'd', '%', 'p', 'r', 'e', 'f', 'i', 'x'])
      ['/', 'w', 'e', 'i', 'r', 'd', '%', 'p', 'r', 'e', 'f', 'i', 'x', '/', 'a'] = true ∧
    likeMatch (listLikePattern ['/', 'w', 'e', 'i', 'r', 'd', '%', 'p', 'r', 'e', 'f', 'i', 'x'])
      ['/', 'w', 'e', 'i', 'r', 'd', 'X', 'p', 'r', 'e', 'f', 'i', 'x', '/', 'a'] = false := by
  have hmain : ∀ pfx path : List Char,
      likeMatch (listLikePattern pfx) path = true ↔ ∃ t, path = prefixWithSlash pfx ++ t :=
    fun pfx path => by
      simpa [listLikePattern] using likeMatch_escape_percent (prefixWithSlash pfx) path
  refine ⟨hmain, ?_, ?_⟩
  · exact (hmain _ _).mpr ⟨['a'], by decide⟩
  · cases hlm : likeMatch (listLikePattern
        ['/', 'w', 'e', 'i', 'r', 'd', '%', 'p', 'r', 'e', 'f', 'i', 'x'])
        ['/', 'w', 'e', 'i', 'r', 'd', 'X', 'p', 'r', 'e', 'f', 'i', 'x', '/', 'a'] with
    | false => rfl
    | true =>
      exfalso
      obtain ⟨t, ht⟩ := (hmain _ _).mp hlm
      rw [show prefixWithSlash ['/', 'w', 'e', 'i', 'r', 'd', '%', 'p', 'r', 'e', 'f', 'i', 'x'] =
          ['/', 'w', 'e', 'i', 'r', 'd', '%', 'p', 'r', 'e', 'f', 'i', 'x', '/'] from rfl] at ht
      have h6 : (['/', 'w', 'e', 'i', 'r', 'd', 'X', 'p', 'r', 'e', 'f', 'i', 'x', '/', 'a'] :
          List Char)[6]? =
          ((['/', 'w', 'e', 'i', 'r', 'd', '%', 'p', 'r', 'e', 'f', 'i', 'x', '/'] :
            List Char) ++ t)[6]? :=
        congrArg (fun l => l[6]?) ht
      rw [List.getElem?_append_left (by decide)] at h6
      exact absurd h6 (by decide)

/-- Both writes append exactly one version row and move the latest pointer
to it. -/
theorem applyOp_latest (st : TripleState) (p : MemOp × Nat) :
    (applyOp st p).latest = some st.versions.length ∧
    (applyOp st p).versions.length = st.versions.length + 1 := by
  obtain ⟨op, now⟩ := p
  cases op <;> simp [applyOp, putVersion, deleteVersion]

/-- The latest pointer always references the last row of the append-only
version list. -/
theorem foldl_applyOp_latest (ops : List (MemOp × Nat)) : ∀ st : TripleState,
    st.latest = (if st.versions.length = 0 then none else some (st.versions.length - 1)) →
    (ops.foldl applyOp st).latest =
      (if (ops.foldl applyOp st).versions.length = 0 then none
       else some ((ops.foldl applyOp st).versions.length - 1)) := by
  induction ops with
  | nil => intro st h; simpa using h
  | cons p rest ih =>
    intro st h
    simp only [List.foldl_cons]
    apply ih
    rw [(applyOp_latest st p).1, (applyOp_latest st p).2]
    simp

/-- Specialization to states reached from the empty triple. -/
theorem applyOps_latest (ops : List (MemOp × Nat)) :
    (applyOps ops).latest =
      (if (applyOps ops).versions.length = 0 then none
       else some ((applyOps ops).versions.length - 1)) :=
  foldl_applyOp_latest ops emptyTriple (by simp [emptyTriple])

/-- Each write appends exactly one version row. -/
theorem foldl_applyOp_length (ops : List (MemOp × Nat)) : ∀ st : TripleState,
    (ops.foldl applyOp st).versions.length = st.versions.length + ops.length := by
  induction ops with
  | nil => intro st; simp
  | cons p rest ih =>
    intro st
    simp only [List.foldl_cons, List.length_cons]
    rw [ih (applyOp st p), (applyOp_latest st p).2]
    omega

/-- C1: latest-pointer invariance of GET — after any finite sequence of
PUT/DELETE on a triple, GET returns `{found:false}` exactly when no version
exists (no latest pointer) or the newest version is a tombstone
(`deleted_at` non-null) or expired (`expires_at ≤ now`); otherwise it
returns the newest version's path, value, version id, `created_at`,
`expires_at` and tags.  The second conjunct records that a latest pointer
is absent exactly when no write has happened. -/
theorem get_reflects_newest_version (ops : List (MemOp × Nat)) (path : List Char) (now : Nat) :
    (getEntry (applyOps ops) path now =
      match (applyOps ops).versions.getLast? with
      | none => none
      | some r =>
        if r.deletedAt.isSome || isExpiredAt r.expiresAt now then none
        else some ⟨path, r.value, (applyOps ops).versions.length - 1, r.createdAt,
          r.expiresAt, r.tags⟩) ∧
    ((applyOps ops).latest = none ↔ ops = []) := by
  have hlat := applyOps_latest ops
  have hlen : (applyOps ops).versions.length = ops.length := by
    simpa [applyOps, emptyTriple] using foldl_applyOp_length ops emptyTriple
  constructor
  · rcases hN : (applyOps ops).versions.getLast? with _ | r
    · have hv : (applyOps ops).versions = [] := by
        simpa using hN
      rw [hv] at hlat
      simp only [List.length_nil, if_pos rfl] at hlat
      simp [getEntry, hlat]
    · have hne : (applyOps ops).versions.length ≠ 0 := by
        intro h0
        rw [List.length_eq_zero.mp h0] at hN
        simp at hN
      rw [if_neg hne] at hlat
      have hidx : (applyOps ops).versions[(applyOps ops).versions.length - 1]? = some r := by
        rw [← List.getLast?_eq_getElem?]
        exact hN
      simp [getEntry, hlat, hidx]
  · rw [hlat]
    constructor
    · intro h
      by_cases h0 : (applyOps ops).versions.length = 0
      · rw [hlen] at h0
        exact List.length_eq_zero.mp h0
      · rw [if_neg h0] at h
        cases h
    · rintro rfl
      simp [applyOps, emptyTriple]

/-- C10: idempotent replay is pure — when a PUT or DELETE carries an
`Idempotency-Key` whose unexpired `(tenant, key)` record matches the
request-body hash (canonical or legacy), the route returns the cached
response with the state completely unchanged: quota counters,
`entry_versions` and the latest pointer are untouched, because the
idempotency gate runs before path normalization, the reserved-path check
and the write-quota increment — so the replay succeeds even when the body's
path is invalid or reserved. -/
theorem idempotent_replay_short_circuits (hashFn : String → String) (writeLimit : Nat)
    (st : SysState) (tenant key : String) (preq : PutReq) (dreq : DelReq) (now : Nat)
    (row : IdemRecord)
    (hrow : lookupAssoc (tenant, key) st.idem = some row)
    (hexp : idemExpired row now = false) :
    ((row.requestHash = hashRequestCanonical hashFn preq.body ∨
        row.requestHash = hashRequestLegacy hashFn preq.body) →
      putRoute hashFn writeLimit st tenant preq (some key) now = (.ok row.response, st)) ∧
    ((row.requestHash = hashRequestCanonical hashFn dreq.body ∨
        row.requestHash = hashRequestLegacy hashFn dreq.body) →
      deleteRoute hashFn st tenant dreq (some key) now = (.ok row.response, st)) := by
  constructor <;> intro hm <;> rcases hm with hm | hm <;>
    simp [putRoute, deleteRoute, hrow, checkIdempotency, hexp, hm]

/-- Witness for C10: a cached PUT replay whose body's path is the invalid
`/` and a cached DELETE replay whose body's path is the reserved `/sys/x`
both return the stored response and leave the state untouched. -/
theorem idempotent_replay_short_circuits_witness :
    putRoute (fun s => s) 100
        ⟨[(("t", "k"), ⟨"null", .bool true, some 100⟩)], [], []⟩ "t"
        ⟨"a", ['/'], .null, none, [], false, .null⟩ (some "k") 5 =
      (.ok (.bool true), ⟨[(("t", "k"), ⟨"null", .bool true, some 100⟩)], [], []⟩) ∧
    deleteRoute (fun s => s)
        ⟨[(("t", "k"), ⟨"null", .bool true, some 100⟩)], [], []⟩ "t"
        ⟨"a", ['/', 's', 'y', 's', '/', 'x'], .null⟩ (some "k") 5 =
      (.ok (.bool true), ⟨[(("t", "k"), ⟨"null", .bool true, some 100⟩)], [], []⟩) := by
  have h := idempotent_replay_short_circuits (fun s => s) 100
    ⟨[(("t", "k"), ⟨"null", .bool true, some 100⟩)], [], []⟩ "t" "k"
    ⟨"a", ['/'], .null, none, [], false, .null⟩
    ⟨"a", ['/', 's', 'y', 's', '/', 'x'], .null⟩ 5
    ⟨"null", .bool true, some 100⟩ rfl rfl
  exact ⟨h.1 (Or.inl (by simp [hashRequestCanonical, canonicalJsonStringify,
      canonicalize, jsonStringify])),
    h.2 (Or.inl (by simp [hashRequestCanonical, canonicalJsonStringify,
      canonicalize, jsonStringify]))⟩

/-- C2 counterexample: a client DELETE of the reserved path `/sys/x` does
not fail — it returns the 200 tombstone response and inserts an
`entry_version` row, moving the latest pointer, refuting the claim that
every PUT and DELETE under `/sys` fails with 403 `RESERVED_PATH` and leaves
the store unchanged. -/
theorem reserved_delete_succeeds_counterexample :
    deleteRoute (fun s => s) ⟨[], [], []⟩ "t"
        ⟨"a", ['/', 's', 'y', 's', '/', 'x'], .null⟩ none 0 =
      (.ok (.obj [("ok", .bool true), ("deleted", .bool true), ("version_id", .num 0),
          ("created_at", .num 0)]),
        ⟨[], [], [(("t", "a", ['/', 's', 'y', 's', '/', 'x']),
          ⟨[⟨.obj [], [], false, "tombstone", 0, none, some 0⟩], some 0⟩)]⟩) := by
  rfl

/-- C2 (amended): a PUT whose normalized path is `/sys` or below fails with
HTTP 403 and no inserted row — but the thrown error carries no `code`
field, so the error envelope surfaces `INTERNAL`, not `RESERVED_PATH` —
while the DELETE route performs no reserved-path check at all: a DELETE of
a reserved path succeeds, appending a tombstone version and moving the
latest pointer. -/
theorem reserved_path_write_behavior (hashFn : String → String) (writeLimit : Nat)
    (st : SysState) (tenant : String) (preq : PutReq) (dreq : DelReq) (now : Nat)
    (pnorm dnorm : List Char)
    (hp : normalizePath preq.path = .ok pnorm) (hpr : isReservedPath pnorm = true)
    (hd : normalizePath dreq.path = .ok dnorm) (_hdr : isReservedPath dnorm = true) :
    putRoute hashFn writeLimit st tenant preq none now =
      (.error ⟨403, none, "Reserved path"⟩, st) ∧
    errorEnvelope ⟨403, none, "Reserved path"⟩ true = (403, "INTERNAL", "Reserved path") ∧
    deleteRoute hashFn st tenant dreq none now =
      (.ok (.obj [("ok", .bool true), ("deleted", .bool true),
          ("version_id", .num (((lookupAssoc (tenant, dreq.agentId, dnorm) st.store).getD
            emptyTriple).versions.length : Int)),
          ("created_at", .num now)]),
        { st with store := (setAssoc (tenant, dreq.agentId, dnorm)
            (deleteVersion ((lookupAssoc (tenant, dreq.agentId, dnorm) st.store).getD
              emptyTriple) now).1 st.store) }) := by
  refine ⟨?_, rfl, ?_⟩
  · simp [putRoute, putCore, hp, hpr]
  · simp [deleteRoute, deleteCore, hd, deleteVersion]

/-- Witness for the amended C2: PUT of `/sys` is refused with the codeless
403 while DELETE of `/sys` succeeds. -/
theorem reserved_path_write_behavior_witness :
    putRoute (fun s => s) 100 ⟨[], [], []⟩ "t"
        ⟨"a", ['/', 's', 'y', 's'], .null, none, [], false, .null⟩ none 0 =
      (.error ⟨403, none, "Reserved path"⟩, ⟨[], [], []⟩) := by
  have h := (reserved_path_write_behavior (fun s => s) 100 ⟨[], [], []⟩ "t"
    ⟨"a", ['/', 's', 'y', 's'], .null, none, [], false, .null⟩
    ⟨"a", ['/', 's', 'y', 's'], .null⟩ 0 ['/', 's', 'y', 's'] ['/', 's', 'y', 's']
    rfl rfl rfl rfl).1
  exact h

/-- `canonPairs` is the entrywise map canonicalizing values. -/
theorem canonPairs_map (l : List (String × Jv)) :
    canonPairs l = l.map (fun p => (p.1, canonicalize p.2)) := by
  induction l with
  | nil => rfl
  | cons p rest ih => obtain ⟨k, v⟩ := p; simp [canonPairs, ih]

/-- `canonList` is the elementwise map. -/
theorem canonList_map (l : List Jv) : canonList l = l.map canonicalize := by
  induction l with
  | nil => rfl
  | cons v rest ih => simp [canonList, ih]

/-- Canonicalizing values keeps keys (hence their duplicate-freeness). -/
theorem canonPairs_keys (l : List (String × Jv)) :
    (canonPairs l).map Prod.fst = l.map Prod.fst := by
  rw [canonPairs_map, List.map_map]
  rfl

/-- `sortPairs` permutes its input. -/
theorem sortPairs_perm (l : List (String × Jv)) : List.Perm (sortPairs l) l :=
  List.perm_insertionSort keyLe l

/-- `sortPairs` sorts by key (weakly). -/
theorem sortPairs_sorted (l : List (String × Jv)) : List.Sorted keyLe (sortPairs l) :=
  List.sorted_insertionSort keyLe l

/-- A weakly key-sorted list with duplicate-free keys is strictly key-sorted. -/
theorem sorted_keyLt_of_nodup {l : List (String × Jv)} (hs : List.Sorted keyLe l)
    (hn : (l.map Prod.fst).Nodup) : List.Sorted keyLt l := by
  have hne : List.Pairwise (fun a b : String × Jv => a.1 ≠ b.1) l :=
    List.pairwise_map.mp hn
  exact (hs.and hne).imp fun h => lt_of_le_of_ne h.1 h.2

/-- Key-sorting two permuted lists with duplicate-free keys gives the same
list: the sorted order is unique. -/
theorem sortPairs_eq_of_perm {l₁ l₂ : List (String × Jv)} (hp : List.Perm l₁ l₂)
    (hn : (l₁.map Prod.fst).Nodup) : sortPairs l₁ = sortPairs l₂ := by
  have hn₂ : (l₂.map Prod.fst).Nodup := ((hp.map Prod.fst).nodup_iff).mp hn
  have hperm : List.Perm (sortPairs l₁) (sortPairs l₂) :=
    ((sortPairs_perm l₁).trans hp).trans (sortPairs_perm l₂).symm
  have hs₁ : List.Sorted keyLt (sortPairs l₁) :=
    sorted_keyLt_of_nodup (sortPairs_sorted l₁)
      (((sortPairs_perm l₁).map Prod.fst).nodup_iff.mpr hn)
  have hs₂ : List.Sorted keyLt (sortPairs l₂) :=
    sorted_keyLt_of_nodup (sortPairs_sorted l₂)
      (((sortPairs_perm l₂).map Prod.fst).nodup_iff.mpr hn₂)
  exact List.eq_of_perm_of_sorted hperm hs₁ hs₂

/-- Canonicalization is invariant under `PermEquiv`: permuting object keys
at any nesting depth does not change the canonical form. -/
theorem canonicalize_eq_of_permEquiv (v₁ v₂ : Jv) (h : PermEquiv v₁ v₂) :
    canonicalize v₁ = canonicalize v₂ := by
  refine @PermEquiv.rec
    (fun a b _ => canonicalize a = canonicalize b)
    (fun a b _ => canonList a = canonList b)
    (fun a b _ => canonPairs a = canonPairs b)
    ?_ ?_ ?_ ?_ ?_ ?_ ?_ ?_ ?_ ?_ ?_ ?_ ?_ v₁ v₂ h
  · rfl
  · intro b; rfl
  · intro n; rfl
  · intro s; rfl
  · rfl
  · rfl
  · rfl
  · intro l₁ l₂ hl ih
    simp [canonicalize, ih]
  · intro l₁ lmid l₂ hn hpq hperm ih
    have hmid : List.Perm (canonPairs lmid) (canonPairs l₂) := by
      rw [canonPairs_map, canonPairs_map]
      exact hperm.map _
    have hall : List.Perm (canonPairs l₁) (canonPairs l₂) := ih ▸ hmid
    have hn1 : ((canonPairs l₁).map Prod.fst).Nodup := by
      rw [canonPairs_keys]; exact hn
    show Jv.obj (sortPairs (canonPairs l₁)) = Jv.obj (sortPairs (canonPairs l₂))
    rw [sortPairs_eq_of_perm hall hn1]
  · rfl
  · intro a b l₁ l₂ hab hl iha ihl
    simp [canonList, iha, ihl]
  · rfl
  · intro k v₁ v₂ l₁ l₂ hv hp ihv ihp
    simp [canonPairs, ihv, ihp]

/-- C8: `canonicalJsonStringify` is invariant under permutation of object
keys at every nesting depth (so the idempotency hashes of `a:1,b:2` and
`b:2,a:1` agree), maps arrays elementwise in order, serializes scalars as
standard JSON, and serializes functions, `undefined` and symbols as
`null`. -/
theorem canonicalJson_properties :
    (∀ v₁ v₂, PermEquiv v₁ v₂ → canonicalJsonStringify v₁ = canonicalJsonStringify v₂) ∧
    canonicalJsonStringify (.obj [("a", .num 1), ("b", .num 2)]) =
      canonicalJsonStringify (.obj [("b", .num 2), ("a", .num 1)]) ∧
    (∀ l, canonicalize (.arr l) = .arr (l.map canonicalize)) ∧
    canonicalJsonStringify .null = "null" ∧
    (∀ b, canonicalJsonStringify (.bool b) = (if b then "true" else "false")) ∧
    (∀ n, canonicalJsonStringify (.num n) = toString n) ∧
    (∀ s, canonicalJsonStringify (.str s) = quoteJsonString s) ∧
    canonicalJsonStringify .undef = "null" ∧
    canonicalJsonStringify .func = "null" ∧
    canonicalJsonStringify .symbol = "null" := by
  have hinv : ∀ v₁ v₂, PermEquiv v₁ v₂ →
      canonicalJsonStringify v₁ = canonicalJsonStringify v₂ :=
    fun v₁ v₂ h => congrArg jsonStringify (canonicalize_eq_of_permEquiv v₁ v₂ h)
  refine ⟨hinv, ?_, fun l => by simp [canonicalize, canonList_map], rfl,
    fun b => by cases b <;> rfl, fun n => rfl, fun s => rfl, rfl, rfl, rfl⟩
  exact hinv _ _ (PermEquiv.obj (by simp)
    (PermEquivPairs.cons (PermEquiv.num 1) (PermEquivPairs.cons (PermEquiv.num 2)
      PermEquivPairs.nil))
    (List.Perm.swap ("b", Jv.num 2) ("a", Jv.num 1) []))

/-- Witness for C8: the canonical serializations of `x:7,y:false` and
`y:false,x:7` coincide. -/
theorem canonicalJson_properties_witness :
    canonicalJsonStringify (.obj [("x", .num 7), ("y", .bool false)]) =
      canonicalJsonStringify (.obj [("y", .bool false), ("x", .num 7)]) :=
  canonicalJson_properties.1 _ _ (PermEquiv.obj (by simp)
    (PermEquivPairs.cons (PermEquiv.num 7) (PermEquivPairs.cons (PermEquiv.bool false)
      PermEquivPairs.nil))
    (List.Perm.swap ("y", Jv.bool false) ("x", Jv.num 7) []))

end AgentFS
